import Mathlib

set_option autoImplicit false

namespace MCOptions

/-! Shallow embedding of `ParallelMCOptions-cluster.ipynb`: the Monte-Carlo pricing
function `price_option`, the coordinator's submission loop over the strike ×
volatility grid, the load-balanced scheduler protocol described by the spec
(submit / wait_all / ResultTable), and the result-assembly step. -/

/-- Transcendental primitives used by the pricing function (`math.exp`, `np.exp`,
`math.sqrt`).  They are abstracted as rational-valued functions so that the
embedding stays executable; positivity of `exp` is a hypothesis where needed. -/
structure MathPrims where
  exp : ℚ → ℚ
  sqrt : ℚ → ℚ

/-- Arithmetic mean of a list, `np.mean` (sum divided by length). -/
def mean (xs : List ℚ) : ℚ := xs.sum / (xs.length : ℚ)

/-- Shallow embedding of the notebook's `price_option(S, K, sigma, r, days, paths)`.
The normal draws `np.random.standard_normal(paths)` of day `j` are passed
explicitly as `z j p` for path `p`; the day loop is the `foldl` over
`List.range days`, carrying `(stock_price, stock_price_sum)` per path. -/
def price_option (M : MathPrims) (z : ℕ → ℕ → ℚ) (S K sigma r : ℚ)
    (days paths : ℕ) : ℚ × ℚ × ℚ × ℚ :=
  let h : ℚ := 1 / (days : ℚ)
  let const1 := M.exp ((r - (1/2) * sigma ^ 2) * h)
  let const2 := sigma * M.sqrt h
  let growth_factor := fun (j p : ℕ) => const1 * M.exp (const2 * z j p)
  let step := fun (p : ℕ) (acc : ℚ × ℚ) (j : ℕ) =>
    (acc.1 * growth_factor j p, acc.2 + acc.1 * growth_factor j p)
  let final := fun (p : ℕ) => (List.range days).foldl (step p) (S, 0)
  let stock_price := fun (p : ℕ) => (final p).1
  let stock_price_avg := fun (p : ℕ) => (final p).2 / (days : ℚ)
  let r_factor := M.exp (-(r * h * (days : ℚ)))
  let euro_put := r_factor * mean ((List.range paths).map (fun p => max 0 (K - stock_price p)))
  let asian_put := r_factor * mean ((List.range paths).map (fun p => max 0 (K - stock_price_avg p)))
  let euro_call := r_factor * mean ((List.range paths).map (fun p => max 0 (stock_price p - K)))
  let asian_call := r_factor * mean ((List.range paths).map (fun p => max 0 (stock_price_avg p - K)))
  (euro_call, euro_put, asian_call, asian_put)

/-- Fallible version of `price_option`, guarding the two operations of the source
that are undefined on degenerate input: `h = 1.0/days` raises `ZeroDivisionError`
when `days = 0`, and `np.mean` of a length-`paths` array is undefined (NaN) when
`paths = 0`.  On all other inputs it computes exactly `price_option`. -/
def price_optionChecked (M : MathPrims) (z : ℕ → ℕ → ℚ) (S K sigma r : ℚ)
    (days paths : ℕ) : Option (ℚ × ℚ × ℚ × ℚ) :=
  if days = 0 then none
  else if paths = 0 then none
  else some (price_option M z S K sigma r days paths)

lemma mean_nonneg {xs : List ℚ} (h : ∀ x ∈ xs, 0 ≤ x) : 0 ≤ mean xs := by
  unfold mean
  exact div_nonneg (List.sum_nonneg h) (by positivity)

lemma mean_max_nonneg (f : ℕ → ℚ) (n : ℕ) :
    0 ≤ mean ((List.range n).map (fun p => max 0 (f p))) := by
  refine mean_nonneg ?_
  intro x hx
  rcases List.mem_map.mp hx with ⟨p, _, rfl⟩
  exact le_max_left 0 (f p)

/-- Outcome of executing one work unit: `done` holds the 4-tuple of prices, and
`failed` wraps the worker-side error (the `WorkerExecutionError` of the spec). -/
inductive Outcome where
  | done (v : ℚ × ℚ × ℚ × ℚ)
  | failed (err : String)
deriving DecidableEq

/-- Modelled from the spec: `WorkUnit` (the spec's data model; the source keeps
the same data implicitly in each `apply_async(price_option, price, strike, sigma,
rate, days, paths)` call and in the position of its `AsyncResult` in
`async_results`).  `id` is the unit's position in submission order,
`i` and `j` its originating (strike_index, volatility_index). -/
structure WorkUnit where
  id : ℕ
  i : ℕ
  j : ℕ
  spot : ℚ
  strike : ℚ
  sigma : ℚ
  rate : ℚ
  days : ℕ
  paths : ℕ
deriving DecidableEq

/-- Inner submission loop `for sigma in sigma_vals`, at strike index `i` and
current volatility index `j`: one `WorkUnit` per volatility. -/
def buildRow (spot rate : ℚ) (days paths nSig i : ℕ) (strike : ℚ) :
    ℕ → List ℚ → List WorkUnit
  | _, [] => []
  | j, s :: ss =>
    { id := i * nSig + j, i := i, j := j, spot := spot, strike := strike,
      sigma := s, rate := rate, days := days, paths := paths } ::
      buildRow spot rate days paths nSig i strike (j + 1) ss

/-- Outer submission loop `for strike in strike_vals`, at current strike index
`i`: rows are concatenated in strike order. -/
def buildRows (spot rate : ℚ) (days paths nSig : ℕ) (sigmaVals : List ℚ) :
    ℕ → List ℚ → List WorkUnit
  | _, [] => []
  | i, k :: ks =>
    buildRow spot rate days paths nSig i k 0 sigmaVals ++
      buildRows spot rate days paths nSig sigmaVals (i + 1) ks

/-- The full Cartesian grid of work units, in the notebook's submission order:
strike as the outer loop, volatility as the inner loop (row-major). -/
def buildUnits (spot rate : ℚ) (days paths : ℕ) (strikeVals sigmaVals : List ℚ) :
    List WorkUnit :=
  buildRows spot rate days paths sigmaVals.length sigmaVals 0 strikeVals

/-- Modelled from the spec: Scheduler state — the `PendingQueue` (FIFO) and the
`ResultTable` kept as the list of (unit id, outcome) entries in arrival order. -/
structure SchedState where
  pending : List WorkUnit
  table : List (ℕ × Outcome)
deriving DecidableEq

/-- Modelled from the spec: `submit(units)` — appends all units to the
`PendingQueue` in submission order and immediately returns one handle (the unit
id) per unit; it is a total function of the state, so it never blocks. -/
def submit (s : SchedState) (units : List WorkUnit) : SchedState × List ℕ :=
  ({ s with pending := s.pending ++ units }, units.map (fun u => u.id))

/-- Modelled from the spec: the `ResultTable` produced by a complete run whose
worker results arrived in the order `arr` (a permutation of the submitted
units), each unit executed exactly once by `exec`. -/
def buildTable (exec : WorkUnit → Outcome) (arr : List WorkUnit) :
    List (ℕ × Outcome) :=
  arr.map (fun u => (u.id, exec u))

/-- Modelled from the spec: the `ResultTable` as seen after the first `t`
arrival events of the run. -/
def stateAt (exec : WorkUnit → Outcome) (arr : List WorkUnit) (t : ℕ) :
    List (ℕ × Outcome) :=
  buildTable exec (arr.take t)

/-- Look up the outcome recorded for a unit id in the `ResultTable`. -/
def tlookup (uid : ℕ) : List (ℕ × Outcome) → Option Outcome
  | [] => none
  | e :: es => if e.1 = uid then some e.2 else tlookup uid es

/-- A handle is terminal (Done or Failed) iff its unit has an entry in the
`ResultTable`. -/
def isTerminal (tbl : List (ℕ × Outcome)) (h : ℕ) : Bool :=
  (tlookup h tbl).isSome

/-- All given handles are terminal in the given `ResultTable`. -/
def allTerminal (tbl : List (ℕ × Outcome)) (handles : List ℕ) : Bool :=
  handles.all (fun h => isTerminal tbl h)

/-- First time `t`, starting from `t₀` and probing at most `fuel + 1` times, at
which the predicate holds; returns `t₀ + fuel` if none is found. -/
def waitFrom (p : ℕ → Bool) : ℕ → ℕ → ℕ
  | t, 0 => t
  | t, Nat.succ fuel => if p t then t else waitFrom p (t + 1) fuel

/-- Modelled from the spec: `wait_all(handles)` (`c.wait(async_results)` in the
source) — suspends until every handle is terminal.  It evaluates to the first
arrival-event count at which all handles are terminal, scanning the run's
finitely many events. -/
def waitAll (exec : WorkUnit → Outcome) (arr : List WorkUnit)
    (handles : List ℕ) : ℕ :=
  waitFrom (fun t => allTerminal (stateAt exec arr t) handles) 0 arr.length

/-- The Grid cell at (strike_index i, volatility_index j): the `ResultTable`
entry of the unit submitted at row-major position `i * nSig + j` (in the source,
`prices.shape = (n_strikes, n_sigmas)` re-projects the flat result list the
same way). -/
def gridCell (tbl : List (ℕ × Outcome)) (nSig i j : ℕ) : Option Outcome :=
  tlookup (i * nSig + j) tbl

/-- Number of Failed entries in the `ResultTable`. -/
def failedCount (tbl : List (ℕ × Outcome)) : ℕ :=
  tbl.countP (fun e => match e.2 with | Outcome.failed _ => true | _ => false)

/-- Number of Done entries in the `ResultTable`. -/
def doneCount (tbl : List (ℕ × Outcome)) : ℕ :=
  tbl.countP (fun e => match e.2 with | Outcome.done _ => true | _ => false)

/-- Number of `ResultTable` entries recorded for a given unit id. -/
def idCount (uid : ℕ) (tbl : List (ℕ × Outcome)) : ℕ :=
  tbl.countP (fun e => e.1 == uid)

/-- Modelled from the spec: the error kinds of the ResultCollector; only
`IncompleteGridError` is needed by the assembly contract. -/
inductive AssembleError where
  | incompleteGridError
deriving DecidableEq

/-- A cell is usable iff its unit's entry exists and is Done. -/
def cellDone (tbl : List (ℕ × Outcome)) (uid : ℕ) : Bool :=
  match tlookup uid tbl with
  | some (Outcome.done _) => true
  | _ => false

/-- Extract the price 4-tuple of a Done cell, `none` for Failed or missing. -/
def cellValue (tbl : List (ℕ × Outcome)) (uid : ℕ) : Option (ℚ × ℚ × ℚ × ℚ) :=
  match tlookup uid tbl with
  | some (Outcome.done v) => some v
  | _ => none

/-- Modelled from the spec: `assemble` of the ResultCollector — produces the
dense `nStrikes × nSig` Grid from a `ResultTable`, failing loudly with
`IncompleteGridError` when some cell is Failed or missing, unless the caller
opted into partial results. -/
def assemble (allowPartial : Bool) (tbl : List (ℕ × Outcome))
    (nStrikes nSig : ℕ) :
    Except AssembleError (List (List (Option (ℚ × ℚ × ℚ × ℚ)))) :=
  if allowPartial ||
      (List.range nStrikes).all (fun i =>
        (List.range nSig).all (fun j => cellDone tbl (i * nSig + j))) then
    Except.ok ((List.range nStrikes).map (fun i =>
      (List.range nSig).map (fun j => cellValue tbl (i * nSig + j))))
  else
    Except.error AssembleError.incompleteGridError

/-- A Python value held by a coordinator variable: the notebook's `price` name
holds a float before assembly and a result 4-tuple after it. -/
inductive PyVal where
  | num (q : ℚ)
  | tup (t : ℚ × ℚ × ℚ × ℚ)
deriving DecidableEq

/-- The coordinator's global variables, as set by the notebook's parameter cell
and read by the submission and assembly cells. -/
structure CoordState where
  price : PyVal
  rate : ℚ
  days : ℕ
  paths : ℕ
  strike_vals : List ℚ
  sigma_vals : List ℚ
deriving DecidableEq

/-- Embedding of `np.linspace(lo, hi, n)` over the rationals. -/
def linspace (lo hi : ℚ) (n : ℕ) : List ℚ :=
  (List.range n).map (fun k => lo + (hi - lo) * (k : ℚ) / ((n : ℚ) - 1))

/-- The coordinator state after the notebook's parameter and axis cells:
`price = 100.0`, `rate = 0.05`, `days = 260`, `paths = 10000`, and the two
`np.linspace` axes. -/
def initCoord : CoordState :=
  { price := PyVal.num 100
    rate := 1/20
    days := 260
    paths := 10000
    strike_vals := linspace 90 110 10
    sigma_vals := linspace (1/10) (2/5) 10 }

/-- The assembly cell's loop `for i, price in enumerate(results)` as a state
transformer: each iteration rebinds the coordinator's `price` variable to the
current result tuple (the flat `prices` array itself is just `results`). -/
def assembleLoop (st : CoordState) (results : List (ℚ × ℚ × ℚ × ℚ)) : CoordState :=
  results.foldl (fun s r => { s with price := PyVal.tup r }) st

lemma buildRow_length (sp r : ℚ) (d p n i : ℕ) (k : ℚ) (ss : List ℚ) :
    ∀ j0 : ℕ, (buildRow sp r d p n i k j0 ss).length = ss.length := by
  induction ss with
  | nil => intro j0; rfl
  | cons s0 ss ih => intro j0; simp [buildRow, ih]

lemma buildRow_get (sp r : ℚ) (d p n i : ℕ) (k : ℚ) (ss : List ℚ) :
    ∀ (j0 j : ℕ) (s : ℚ), ss[j]? = some s →
      (buildRow sp r d p n i k j0 ss)[j]? =
        some { id := i * n + (j0 + j), i := i, j := j0 + j, spot := sp,
               strike := k, sigma := s, rate := r, days := d, paths := p } := by
  induction ss with
  | nil => intro j0 j s h; simp at h
  | cons s0 ss ih =>
    intro j0 j s h
    cases j with
    | zero =>
      simp only [List.getElem?_cons_zero, Option.some_inj] at h
      subst h
      simp [buildRow]
    | succ j =>
      simp only [List.getElem?_cons_succ] at h
      have h2 := ih (j0 + 1) j s h
      rw [show j0 + 1 + j = j0 + (j + 1) from by omega] at h2
      simpa [buildRow] using h2

lemma buildRow_map_id (sp r : ℚ) (d p n i : ℕ) (k : ℚ) (ss : List ℚ) :
    ∀ j0 : ℕ, (buildRow sp r d p n i k j0 ss).map (fun u => u.id) =
      List.range' (i * n + j0) ss.length := by
  induction ss with
  | nil => intro j0; rfl
  | cons s0 ss ih =>
    intro j0
    simp only [buildRow, List.map_cons, ih (j0 + 1), List.length_cons,
      List.range'_succ]
    rw [show i * n + (j0 + 1) = i * n + j0 + 1 from by omega]

lemma buildRows_map_id (sp r : ℚ) (d p n : ℕ) (gv : List ℚ) (hn : gv.length = n)
    (ks : List ℚ) : ∀ i0 : ℕ,
    (buildRows sp r d p n gv i0 ks).map (fun u => u.id) =
      List.range' (i0 * n) (ks.length * n) := by
  induction ks with
  | nil => intro i0; simp [buildRows]
  | cons k ks ih =>
    intro i0
    simp only [buildRows, List.map_append, buildRow_map_id, ih (i0 + 1), hn]
    rw [show i0 * n + 0 = i0 * n from by omega,
      show (i0 + 1) * n = i0 * n + n from by ring,
      List.range'_append_1]
    congr 1
    simp [Nat.succ_mul, Nat.add_comm]

lemma buildUnits_map_id (sp r : ℚ) (d p : ℕ) (sv gv : List ℚ) :
    (buildUnits sp r d p sv gv).map (fun u => u.id) =
      List.range (sv.length * gv.length) := by
  unfold buildUnits
  rw [buildRows_map_id sp r d p gv.length gv rfl sv 0, List.range_eq_range']
  norm_num

lemma buildUnits_length (sp r : ℚ) (d p : ℕ) (sv gv : List ℚ) :
    (buildUnits sp r d p sv gv).length = sv.length * gv.length := by
  have h := congrArg List.length (buildUnits_map_id sp r d p sv gv)
  simpa using h

lemma buildRows_get (sp r : ℚ) (d p n : ℕ) (gv : List ℚ) (hn : gv.length = n)
    (ks : List ℚ) : ∀ (i0 i j : ℕ) (k s : ℚ), j < n →
      ks[i]? = some k → gv[j]? = some s →
      (buildRows sp r d p n gv i0 ks)[i * n + j]? =
        some { id := (i0 + i) * n + j, i := i0 + i, j := j, spot := sp,
               strike := k, sigma := s, rate := r, days := d, paths := p } := by
  induction ks with
  | nil => intro i0 i j k s _ hk _; simp at hk
  | cons k0 ks ih =>
    intro i0 i j k s hj hk hs
    cases i with
    | zero =>
      have hkk : k0 = k := by simpa using hk
      subst hkk
      have hlen : (buildRow sp r d p n i0 k0 0 gv).length = n := by
        rw [buildRow_length, hn]
      have hget := buildRow_get sp r d p n i0 k0 gv 0 j s hs
      rw [show (0 : ℕ) + j = j from by omega] at hget
      simp only [buildRows, Nat.zero_mul, Nat.zero_add]
      rw [List.getElem?_append_left (by omega), hget]
      norm_num
    | succ i =>
      simp only [List.getElem?_cons_succ] at hk
      have hlen : (buildRow sp r d p n i0 k0 0 gv).length = n := by
        rw [buildRow_length, hn]
      have h2 := ih (i0 + 1) i j k s hj hk hs
      simp only [buildRows]
      rw [List.getElem?_append_right (by rw [hlen]; calc
            n ≤ i * n + j + n := by omega
            _ = (i + 1) * n + j := by ring)]
      rw [hlen, show (i + 1) * n + j - n = i * n + j from by
        have : (i + 1) * n = i * n + n := by ring
        omega]
      rw [show i0 + 1 + i = i0 + (i + 1) from by omega] at h2
      exact h2

lemma buildUnits_get (sp r : ℚ) (d p : ℕ) (sv gv : List ℚ) (i j : ℕ) (k s : ℚ)
    (hj : j < gv.length) (hk : sv[i]? = some k) (hs : gv[j]? = some s) :
    (buildUnits sp r d p sv gv)[i * gv.length + j]? =
      some { id := i * gv.length + j, i := i, j := j, spot := sp, strike := k,
             sigma := s, rate := r, days := d, paths := p } := by
  have h := buildRows_get sp r d p gv.length gv rfl sv 0 i j k s hj hk hs
  simpa using h

lemma buildTable_map_fst (exec : WorkUnit → Outcome) (arr : List WorkUnit) :
    (buildTable exec arr).map Prod.fst = arr.map (fun u => u.id) := by
  simp [buildTable, List.map_map]

lemma buildTable_length (exec : WorkUnit → Outcome) (arr : List WorkUnit) :
    (buildTable exec arr).length = arr.length := by
  simp [buildTable]

lemma tlookup_isSome_of_mem (exec : WorkUnit → Outcome) (us : List WorkUnit)
    (uid : ℕ) (h : uid ∈ us.map (fun u => u.id)) :
    (tlookup uid (buildTable exec us)).isSome := by
  induction us with
  | nil => simp at h
  | cons v us ih =>
    simp only [List.map_cons, List.mem_cons] at h
    simp only [buildTable, List.map_cons, tlookup]
    by_cases hv : v.id = uid
    · simp [hv]
    · rcases h with h | h
      · exact absurd h.symm hv
      · simpa [hv] using ih h

lemma tlookup_buildTable_of_mem (exec : WorkUnit → Outcome) (us : List WorkUnit)
    (u : WorkUnit) (nd : (us.map (fun u => u.id)).Nodup) (hu : u ∈ us) :
    tlookup u.id (buildTable exec us) = some (exec u) := by
  induction us with
  | nil => simp at hu
  | cons v us ih =>
    simp only [List.map_cons, List.nodup_cons] at nd
    rcases List.mem_cons.mp hu with rfl | hu'
    · simp [buildTable, tlookup]
    · have hne : v.id ≠ u.id := by
        intro he
        exact nd.1 (he ▸ List.mem_map.mpr ⟨u, hu', rfl⟩)
      simpa [buildTable, tlookup, hne] using ih nd.2 hu'

lemma tlookup_perm (uid : ℕ) {t t' : List (ℕ × Outcome)} (h : t.Perm t')
    (nd : (t.map Prod.fst).Nodup) : tlookup uid t = tlookup uid t' := by
  induction h with
  | nil => rfl
  | cons e _ ih =>
    simp only [List.map_cons, List.nodup_cons] at nd
    simp only [tlookup]
    rw [ih nd.2]
  | swap e f l =>
    simp only [List.map_cons, List.nodup_cons, List.mem_cons] at nd
    have hne : f.1 ≠ e.1 := fun he => nd.1 (Or.inl he)
    by_cases h1 : e.1 = uid <;> by_cases h2 : f.1 = uid <;>
      simp [tlookup, h1, h2]
    exact absurd (h1.trans h2.symm) (fun he => hne he.symm)
  | trans h1 _ ih1 ih2 =>
    have nd2 : (List.map Prod.fst _).Nodup := ((h1.map Prod.fst).nodup_iff).mp nd
    exact (ih1 nd).trans (ih2 nd2)

lemma waitFrom_spec (p : ℕ → Bool) :
    ∀ (fuel t : ℕ), p (t + fuel) = true →
      p (waitFrom p t fuel) = true ∧ t ≤ waitFrom p t fuel ∧
      waitFrom p t fuel ≤ t + fuel ∧
      ∀ s, t ≤ s → s < waitFrom p t fuel → p s = false := by
  intro fuel
  induction fuel with
  | zero =>
    intro t h
    simp only [waitFrom]
    exact ⟨by simpa using h, le_rfl, by omega, fun s hs hs' => by omega⟩
  | succ fuel ih =>
    intro t h
    by_cases hp : p t
    · have heq : waitFrom p t (fuel + 1) = t := by simp [waitFrom, hp]
      rw [heq]
      exact ⟨hp, le_rfl, by omega, fun s hs hs' => by omega⟩
    · have heq : waitFrom p t (fuel + 1) = waitFrom p (t + 1) fuel := by
        simp [waitFrom, hp]
      have h' : p (t + 1 + fuel) = true := by
        rw [show t + 1 + fuel = t + (fuel + 1) from by omega]; exact h
      obtain ⟨a, b, c, d⟩ := ih (t + 1) h'
      rw [heq]
      refine ⟨a, by omega, by omega, fun s hs hs' => ?_⟩
      rcases Nat.eq_or_lt_of_le hs with rfl | hlt
      · simpa using hp
      · exact d s (by omega) hs'

lemma stateAt_full (exec : WorkUnit → Outcome) (arr : List WorkUnit) :
    stateAt exec arr arr.length = buildTable exec arr := by
  simp [stateAt, List.take_length]

lemma allTerminal_full (exec : WorkUnit → Outcome) (arr : List WorkUnit)
    (handles : List ℕ) (hsub : ∀ h ∈ handles, h ∈ arr.map (fun u => u.id)) :
    allTerminal (stateAt exec arr arr.length) handles = true := by
  rw [stateAt_full]
  simp only [allTerminal, List.all_eq_true]
  intro h hh
  exact tlookup_isSome_of_mem exec arr h (hsub h hh)

lemma assembleLoop_price (st : CoordState) (results : List (ℚ × ℚ × ℚ × ℚ))
    (r : ℚ × ℚ × ℚ × ℚ) (h : results.getLast? = some r) :
    (assembleLoop st results).price = PyVal.tup r := by
  induction results generalizing st with
  | nil => simp at h
  | cons x xs ih =>
    cases xs with
    | nil =>
      simp only [List.getLast?_singleton, Option.some_inj] at h
      subst h
      simp [assembleLoop]
    | cons y ys =>
      rw [List.getLast?_cons_cons] at h
      simpa [assembleLoop] using ih { st with price := PyVal.tup x } h

lemma assembleLoop_frame (st : CoordState) (results : List (ℚ × ℚ × ℚ × ℚ)) :
    (assembleLoop st results).rate = st.rate ∧
    (assembleLoop st results).days = st.days ∧
    (assembleLoop st results).paths = st.paths ∧
    (assembleLoop st results).strike_vals = st.strike_vals ∧
    (assembleLoop st results).sigma_vals = st.sigma_vals := by
  induction results generalizing st with
  | nil => exact ⟨rfl, rfl, rfl, rfl, rfl⟩
  | cons x xs ih => simpa [assembleLoop] using ih { st with price := PyVal.tup x }

/-- The spec's 9-cell test scenario: strike_axis [90, 100, 110], sigma_axis
[0.1, 0.25, 0.4], the other parameters from the notebook's parameter cell. -/
def scenarioUnits : List WorkUnit :=
  buildUnits 100 (1/20) 260 10000 [90, 100, 110] [1/10, 1/4, 2/5]

/-- The scenario's stubbed pricing function: return (strike, sigma, strike,
sigma) for every unit. -/
def stubExec : WorkUnit → Outcome :=
  fun u => Outcome.done (u.strike, u.sigma, u.strike, u.sigma)

/-- The completed `ResultTable` of the all-success scenario. -/
def scenarioTable : List (ℕ × Outcome) := buildTable stubExec scenarioUnits

/-- The failure scenario's stubbed pricing function: the unit at grid position
(1,1) (id 4) raises, every other unit returns (strike, sigma, strike, sigma). -/
def stubExecFail : WorkUnit → Outcome :=
  fun u => if u.id = 4 then Outcome.failed "boom"
    else Outcome.done (u.strike, u.sigma, u.strike, u.sigma)

/-- The completed `ResultTable` of the one-failure scenario. -/
def scenarioTableFail : List (ℕ × Outcome) := buildTable stubExecFail scenarioUnits

/-- Claim C4: the pricing function is a pure function of
(spot, strike, volatility, rate, days, path_count) plus its random draws,
returning the 4-tuple (european_call, european_put, asian_call, asian_put),
and for every input with days ≥ 1 and paths ≥ 1 (and a positive exponential
primitive, as the real `exp` is) each of the four returned prices is
non-negative. -/
theorem C4_price_option_nonneg (M : MathPrims) (z : ℕ → ℕ → ℚ)
    (S K sigma r : ℚ) (days paths : ℕ)
    (hpos : ∀ x, 0 < M.exp x) (hdays : 1 ≤ days) (hpaths : 1 ≤ paths) :
    0 ≤ (price_option M z S K sigma r days paths).1 ∧
    0 ≤ (price_option M z S K sigma r days paths).2.1 ∧
    0 ≤ (price_option M z S K sigma r days paths).2.2.1 ∧
    0 ≤ (price_option M z S K sigma r days paths).2.2.2 := by
  simp only [price_option]
  refine ⟨?_, ?_, ?_, ?_⟩ <;>
    exact mul_nonneg (le_of_lt (hpos _)) (mean_max_nonneg _ _)

/-- Witness for C4 at a concrete input. -/
theorem C4_price_option_nonneg_witness :
    (∀ x : ℚ, 0 < (MathPrims.mk (fun _ => 1) (fun _ => 1)).exp x) ∧
    (1 : ℕ) ≤ 1 ∧
    0 ≤ (price_option (MathPrims.mk (fun _ => 1) (fun _ => 1)) (fun _ _ => 0)
          100 100 (1/4) (1/20) 1 1).1 :=
  ⟨fun _ => one_pos, le_rfl,
    (C4_price_option_nonneg (MathPrims.mk (fun _ => 1) (fun _ => 1)) (fun _ _ => 0)
      100 100 (1/4) (1/20) 1 1 (fun _ => one_pos) le_rfl le_rfl).1⟩

/-- Claim C9: price_option is only well-defined under days ≥ 1 and paths ≥ 1 —
`h = 1.0/days` divides by zero when `days = 0` and `np.mean` averages an empty
length-`paths` array when `paths = 0`; under days ≥ 1 and paths ≥ 1 the checked
computation succeeds and agrees with the total embedding. -/
theorem C9_price_option_preconditions (M : MathPrims) (z : ℕ → ℕ → ℚ)
    (S K sigma r : ℚ) (days paths : ℕ) :
    (price_optionChecked M z S K sigma r days paths = none ↔
      days = 0 ∨ paths = 0) ∧
    (price_optionChecked M z S K sigma r days paths =
        some (price_option M z S K sigma r days paths) ↔
      1 ≤ days ∧ 1 ≤ paths) := by
  unfold price_optionChecked
  constructor
  · by_cases h1 : days = 0 <;> by_cases h2 : paths = 0 <;> simp [h1, h2]
  · by_cases h1 : days = 0 <;> by_cases h2 : paths = 0 <;> simp [h1, h2] <;> omega

/-- Claim C10: the assembly loop's variable reuses the name `price`, so after
assembly the coordinator's `price` no longer holds the initial stock price
100.0 but the last result tuple; every other coordinator parameter (rate, days,
paths, strike_vals, sigma_vals) is unchanged by assembly. -/
theorem C10_price_shadowed (results : List (ℚ × ℚ × ℚ × ℚ))
    (r : ℚ × ℚ × ℚ × ℚ) (hlast : results.getLast? = some r) :
    initCoord.price = PyVal.num 100 ∧
    (assembleLoop initCoord results).price = PyVal.tup r ∧
    (assembleLoop initCoord results).price ≠ PyVal.num 100 ∧
    (assembleLoop initCoord results).rate = initCoord.rate ∧
    (assembleLoop initCoord results).days = initCoord.days ∧
    (assembleLoop initCoord results).paths = initCoord.paths ∧
    (assembleLoop initCoord results).strike_vals = initCoord.strike_vals ∧
    (assembleLoop initCoord results).sigma_vals = initCoord.sigma_vals := by
  have hp := assembleLoop_price initCoord results r hlast
  obtain ⟨h1, h2, h3, h4, h5⟩ := assembleLoop_frame initCoord results
  exact ⟨rfl, hp, by rw [hp]; simp, h1, h2, h3, h4, h5⟩

/-- Witness for C10 at a concrete run with one result tuple. -/
theorem C10_price_shadowed_witness :
    ([((1:ℚ), (2:ℚ), (3:ℚ), (4:ℚ))].getLast? = some (1, 2, 3, 4)) ∧
    (assembleLoop initCoord [(1, 2, 3, 4)]).price = PyVal.tup (1, 2, 3, 4) :=
  ⟨rfl, (C10_price_shadowed [(1, 2, 3, 4)] (1, 2, 3, 4) rfl).2.1⟩

/-- Claim C5: submit enqueues all units at the tail of the PendingQueue in
submission order and returns one handle (the unit id) per unit immediately —
it is a total function of the state, so it never blocks — under the
precondition that unit ids are unique; the notebook's units enter in row-major
Cartesian order with strike as the outer loop and volatility as the inner. -/
theorem C5_submit_order (s : SchedState) (units : List WorkUnit)
    (hunique : (units.map (fun u => u.id)).Nodup)
    (sp r : ℚ) (d p : ℕ) (sv gv : List ℚ) (i j : ℕ) (k sg : ℚ)
    (hj : j < gv.length) (hk : sv[i]? = some k) (hs : gv[j]? = some sg) :
    (submit s units).1.pending = s.pending ++ units ∧
    (submit s units).2 = units.map (fun u => u.id) ∧
    (submit s units).2.length = units.length ∧
    (buildUnits sp r d p sv gv)[i * gv.length + j]? =
      some { id := i * gv.length + j, i := i, j := j, spot := sp, strike := k,
             sigma := sg, rate := r, days := d, paths := p } :=
  ⟨rfl, rfl, by simp [submit], buildUnits_get sp r d p sv gv i j k sg hj hk hs⟩

/-- Witness for C5 at a one-unit submission. -/
theorem C5_submit_order_witness :
    (([⟨0, 0, 0, 100, 90, 1/10, 1/20, 260, 10000⟩] : List WorkUnit).map
      (fun u => u.id)).Nodup ∧
    (0 : ℕ) < ([(1/10 : ℚ)] : List ℚ).length ∧
    (submit ⟨[], []⟩ [⟨0, 0, 0, 100, 90, 1/10, 1/20, 260, 10000⟩]).1.pending =
      [] ++ [(⟨0, 0, 0, 100, 90, 1/10, 1/20, 260, 10000⟩ : WorkUnit)] :=
  ⟨by simp, by norm_num,
    (C5_submit_order ⟨[], []⟩ [⟨0, 0, 0, 100, 90, 1/10, 1/20, 260, 10000⟩]
      (by simp) 100 (1/20) 260 10000 [90] [1/10] 0 0 90 (1/10)
      (by norm_num) rfl rfl).1⟩

/-- Claim C1: for every strike and volatility axis, the assembled Grid cell at
(strike_index i, volatility_index j) holds the 4-tuple computed from
(strike_axis[i], sigma_axis[j]) with the fixed parameters; in the 9-cell
scenario with the pricing function stubbed to (strike, sigma, strike, sigma),
Grid[0][0] = (90, 0.1, 90, 0.1), all 9 cells are populated, and the Failed
count is 0. -/
theorem C1_grid_cells (g : ℚ → ℚ → ℚ → ℚ → ℕ → ℕ → ℚ × ℚ × ℚ × ℚ)
    (sp r : ℚ) (d p : ℕ) (sv gv : List ℚ) (i j : ℕ) (k sg : ℚ)
    (hj : j < gv.length) (hk : sv[i]? = some k) (hs : gv[j]? = some sg) :
    gridCell (buildTable
        (fun u => Outcome.done (g u.spot u.strike u.sigma u.rate u.days u.paths))
        (buildUnits sp r d p sv gv)) gv.length i j =
      some (Outcome.done (g sp k sg r d p)) ∧
    gridCell scenarioTable 3 0 0 = some (Outcome.done (90, 1/10, 90, 1/10)) ∧
    (∀ i' < 3, ∀ j' < 3, (gridCell scenarioTable 3 i' j').isSome = true) ∧
    failedCount scenarioTable = 0 := by
  refine ⟨?_, ?_, ?_, ?_⟩
  · have hnd : ((buildUnits sp r d p sv gv).map (fun u => u.id)).Nodup := by
      rw [buildUnits_map_id]
      exact List.nodup_range _
    have hget := buildUnits_get sp r d p sv gv i j k sg hj hk hs
    have hmem := List.getElem?_mem hget
    have hlk := tlookup_buildTable_of_mem
      (fun u => Outcome.done (g u.spot u.strike u.sigma u.rate u.days u.paths))
      (buildUnits sp r d p sv gv) _ hnd hmem
    exact hlk
  · norm_num [scenarioTable, scenarioUnits, buildUnits, buildRows, buildRow,
      buildTable, stubExec, gridCell, tlookup]
  · intro i' hi' j' hj'
    interval_cases i' <;> interval_cases j' <;>
      norm_num [scenarioTable, scenarioUnits, buildUnits, buildRows, buildRow,
        buildTable, stubExec, gridCell, tlookup]
  · norm_num [scenarioTable, scenarioUnits, buildUnits, buildRows, buildRow,
      buildTable, stubExec, failedCount, List.countP, List.countP.go]

/-- Witness for C1 at a one-cell axis pair. -/
theorem C1_grid_cells_witness :
    ((0 : ℕ) < ([(1/10 : ℚ)] : List ℚ).length) ∧
    gridCell (buildTable
        (fun u => Outcome.done (u.strike, u.sigma, u.strike, u.sigma))
        (buildUnits 100 (1/20) 260 10000 [90] [1/10])) ([(1/10 : ℚ)] : List ℚ).length 0 0 =
      some (Outcome.done (90, 1/10, 90, 1/10)) :=
  ⟨by norm_num,
    (C1_grid_cells (fun _ k s _ _ _ => (k, s, k, s)) 100 (1/20) 260 10000
      [90] [1/10] 0 0 90 (1/10) (by norm_num) rfl rfl).1⟩

/-- Claim C2: after a complete run over any arrival permutation of N uniquely
identified submitted units, the ResultTable has exactly N entries — one per
submitted unit id, no duplicates, none missing; for the notebook's run
N = n_strikes * n_sigmas. -/
theorem C2_resultTable_one_entry_per_unit (exec : WorkUnit → Outcome)
    (units arr : List WorkUnit) (hperm : arr.Perm units)
    (hunique : (units.map (fun u => u.id)).Nodup)
    (sp r : ℚ) (d p : ℕ) (sv gv : List ℚ) :
    (buildTable exec arr).length = units.length ∧
    ((buildTable exec arr).map Prod.fst).Nodup ∧
    (∀ uid, uid ∈ (buildTable exec arr).map Prod.fst ↔
      uid ∈ units.map (fun u => u.id)) ∧
    (buildUnits sp r d p sv gv).length = sv.length * gv.length := by
  have hids := buildTable_map_fst exec arr
  have hpm : (arr.map (fun u => u.id)).Perm (units.map (fun u => u.id)) :=
    hperm.map _
  refine ⟨?_, ?_, ?_, buildUnits_length sp r d p sv gv⟩
  · rw [buildTable_length]
    exact hperm.length_eq
  · rw [hids]
    exact hpm.nodup_iff.mpr hunique
  · intro uid
    rw [hids]
    exact hpm.mem_iff

/-- Witness for C2 at a one-unit run. -/
theorem C2_resultTable_one_entry_per_unit_witness :
    (([⟨0, 0, 0, 100, 90, 1/10, 1/20, 260, 10000⟩] : List WorkUnit).Perm
      [⟨0, 0, 0, 100, 90, 1/10, 1/20, 260, 10000⟩]) ∧
    (buildTable (fun _ => Outcome.done (0, 0, 0, 0))
        [⟨0, 0, 0, 100, 90, 1/10, 1/20, 260, 10000⟩]).length =
      ([⟨0, 0, 0, 100, 90, 1/10, 1/20, 260, 10000⟩] : List WorkUnit).length :=
  ⟨List.Perm.refl _,
    (C2_resultTable_one_entry_per_unit (fun _ => Outcome.done (0, 0, 0, 0))
      [⟨0, 0, 0, 100, 90, 1/10, 1/20, 260, 10000⟩]
      [⟨0, 0, 0, 100, 90, 1/10, 1/20, 260, 10000⟩]
      (List.Perm.refl _) (by simp) 100 (1/20) 260 10000 [90] [1/10]).1⟩

/-- Claim C3: wait_all suspends until every handle it was given is terminal
(Done or Failed): it does not return at any event count at which some handle is
non-terminal, and it always returns by the end of the run's finitely many
arrival events once all handles are terminal — Failed outcomes count toward
completion since `exec` is arbitrary. -/
theorem C3_waitAll_terminal (exec : WorkUnit → Outcome)
    (units arr : List WorkUnit) (hperm : arr.Perm units) :
    allTerminal (stateAt exec arr (waitAll exec arr (units.map (fun u => u.id))))
        (units.map (fun u => u.id)) = true ∧
    (∀ t, t < waitAll exec arr (units.map (fun u => u.id)) →
      allTerminal (stateAt exec arr t) (units.map (fun u => u.id)) = false) ∧
    waitAll exec arr (units.map (fun u => u.id)) ≤ arr.length := by
  have hsub : ∀ h ∈ units.map (fun u => u.id), h ∈ arr.map (fun u => u.id) := by
    intro h hh
    exact (hperm.map (fun u => u.id)).mem_iff.mpr hh
  have hfull := allTerminal_full exec arr (units.map (fun u => u.id)) hsub
  obtain ⟨a, b, c, d⟩ := waitFrom_spec
    (fun t => allTerminal (stateAt exec arr t) (units.map (fun u => u.id)))
    arr.length 0 (by simpa using hfull)
  exact ⟨a, fun t ht => d t (Nat.zero_le t) ht, by simpa using c⟩

/-- Witness for C3 at a one-unit run with a failing unit. -/
theorem C3_waitAll_terminal_witness :
    (([⟨0, 0, 0, 100, 90, 1/10, 1/20, 260, 10000⟩] : List WorkUnit).Perm
      [⟨0, 0, 0, 100, 90, 1/10, 1/20, 260, 10000⟩]) ∧
    waitAll (fun _ => Outcome.failed "boom")
        [⟨0, 0, 0, 100, 90, 1/10, 1/20, 260, 10000⟩]
        (([⟨0, 0, 0, 100, 90, 1/10, 1/20, 260, 10000⟩] : List WorkUnit).map
          (fun u => u.id)) ≤
      ([⟨0, 0, 0, 100, 90, 1/10, 1/20, 260, 10000⟩] : List WorkUnit).length :=
  ⟨List.Perm.refl _,
    (C3_waitAll_terminal (fun _ => Outcome.failed "boom")
      [⟨0, 0, 0, 100, 90, 1/10, 1/20, 260, 10000⟩]
      [⟨0, 0, 0, 100, 90, 1/10, 1/20, 260, 10000⟩]
      (List.Perm.refl _)).2.2⟩

/-- Claim C6: Grid assembly is invariant to the order in which worker results
arrived — for every completed ResultTable built from an arrival order with
unique unit ids and every permutation of that order, every assembled Grid cell
is identical. -/
theorem C6_grid_order_independence (exec : WorkUnit → Outcome)
    (arr arr2 : List WorkUnit) (hperm : arr2.Perm arr)
    (hunique : (arr.map (fun u => u.id)).Nodup) (nSig i j : ℕ) :
    gridCell (buildTable exec arr2) nSig i j =
      gridCell (buildTable exec arr) nSig i j := by
  unfold gridCell
  refine tlookup_perm _ (hperm.map _) ?_
  rw [buildTable_map_fst]
  exact (hperm.map (fun u => u.id)).nodup_iff.mpr hunique

/-- Witness for C6 at a two-unit run with swapped arrival order. -/
theorem C6_grid_order_independence_witness :
    (([⟨1, 0, 1, 100, 90, 1/4, 1/20, 260, 10000⟩,
       ⟨0, 0, 0, 100, 90, 1/10, 1/20, 260, 10000⟩] : List WorkUnit).Perm
      [⟨0, 0, 0, 100, 90, 1/10, 1/20, 260, 10000⟩,
       ⟨1, 0, 1, 100, 90, 1/4, 1/20, 260, 10000⟩]) ∧
    gridCell (buildTable stubExec
        [⟨1, 0, 1, 100, 90, 1/4, 1/20, 260, 10000⟩,
         ⟨0, 0, 0, 100, 90, 1/10, 1/20, 260, 10000⟩]) 2 0 0 =
      gridCell (buildTable stubExec
        [⟨0, 0, 0, 100, 90, 1/10, 1/20, 260, 10000⟩,
         ⟨1, 0, 1, 100, 90, 1/4, 1/20, 260, 10000⟩]) 2 0 0 :=
  ⟨List.Perm.swap _ _ _,
    C6_grid_order_independence stubExec
      [⟨0, 0, 0, 100, 90, 1/10, 1/20, 260, 10000⟩,
       ⟨1, 0, 1, 100, 90, 1/4, 1/20, 260, 10000⟩]
      [⟨1, 0, 1, 100, 90, 1/4, 1/20, 260, 10000⟩,
       ⟨0, 0, 0, 100, 90, 1/10, 1/20, 260, 10000⟩]
      (List.Perm.swap _ _ _) (by simp) 2 0 0⟩

/-- Claim C7: if any cell's unit ended Failed, assembling the Grid without the
explicit partial-result opt-in fails loudly with IncompleteGridError rather
than substituting values; in the 9-cell scenario with the unit at (1,1)
raising, exactly 1 entry is Failed, the other 8 cells are Done, and
assemble with allowPartial = false is the IncompleteGridError. -/
theorem C7_assemble_fails_loudly (tbl : List (ℕ × Outcome))
    (nStrikes nSig i j : ℕ) (hi : i < nStrikes) (hj : j < nSig)
    (hfail : cellDone tbl (i * nSig + j) = false) :
    assemble false tbl nStrikes nSig =
      Except.error AssembleError.incompleteGridError ∧
    failedCount scenarioTableFail = 1 ∧
    doneCount scenarioTableFail = 8 ∧
    (∀ uid < 9, uid ≠ 4 → cellDone scenarioTableFail uid = true) ∧
    tlookup 4 scenarioTableFail = some (Outcome.failed "boom") ∧
    assemble false scenarioTableFail 3 3 =
      Except.error AssembleError.incompleteGridError := by
  refine ⟨?_, ?_, ?_, ?_, ?_, ?_⟩
  · have hcond : ((List.range nStrikes).all (fun i' =>
        (List.range nSig).all (fun j' => cellDone tbl (i' * nSig + j')))) = false := by
      cases hca : ((List.range nStrikes).all (fun i' =>
          (List.range nSig).all (fun j' => cellDone tbl (i' * nSig + j')))) with
      | false => rfl
      | true =>
        rw [List.all_eq_true] at hca
        have h1 := hca i (List.mem_range.mpr hi)
        rw [List.all_eq_true] at h1
        have h2 := h1 j (List.mem_range.mpr hj)
        rw [hfail] at h2
        simp at h2
    simp [assemble, hcond]
  · norm_num [scenarioTableFail, scenarioUnits, buildUnits, buildRows, buildRow,
      buildTable, stubExecFail, failedCount, List.countP, List.countP.go]
  · norm_num [scenarioTableFail, scenarioUnits, buildUnits, buildRows, buildRow,
      buildTable, stubExecFail, doneCount, List.countP, List.countP.go]
  · intro uid hlt hne
    interval_cases uid
    · norm_num [scenarioTableFail, scenarioUnits, buildUnits, buildRows, buildRow,
        buildTable, stubExecFail, cellDone, tlookup]
    · norm_num [scenarioTableFail, scenarioUnits, buildUnits, buildRows, buildRow,
        buildTable, stubExecFail, cellDone, tlookup]
    · norm_num [scenarioTableFail, scenarioUnits, buildUnits, buildRows, buildRow,
        buildTable, stubExecFail, cellDone, tlookup]
    · norm_num [scenarioTableFail, scenarioUnits, buildUnits, buildRows, buildRow,
        buildTable, stubExecFail, cellDone, tlookup]
    · exact absurd rfl hne
    · norm_num [scenarioTableFail, scenarioUnits, buildUnits, buildRows, buildRow,
        buildTable, stubExecFail, cellDone, tlookup]
    · norm_num [scenarioTableFail, scenarioUnits, buildUnits, buildRows, buildRow,
        buildTable, stubExecFail, cellDone, tlookup]
    · norm_num [scenarioTableFail, scenarioUnits, buildUnits, buildRows, buildRow,
        buildTable, stubExecFail, cellDone, tlookup]
    · norm_num [scenarioTableFail, scenarioUnits, buildUnits, buildRows, buildRow,
        buildTable, stubExecFail, cellDone, tlookup]
  · norm_num [scenarioTableFail, scenarioUnits, buildUnits, buildRows, buildRow,
      buildTable, stubExecFail, tlookup]
  · have hcell : cellDone scenarioTableFail 4 = false := by
      norm_num [scenarioTableFail, scenarioUnits, buildUnits, buildRows, buildRow,
        buildTable, stubExecFail, cellDone, tlookup]
    have hcond : ((List.range 3).all (fun i' =>
        (List.range 3).all (fun j' => cellDone scenarioTableFail (i' * 3 + j')))) = false := by
      have h4 : (1 : ℕ) * 3 + 1 = 4 := by norm_num
      simp only [List.range_succ, List.range_zero, List.nil_append, List.all_append,
        List.all_cons, List.all_nil, h4, hcell]
      simp
    unfold assemble
    rw [hcond]
    simp

/-- Witness for C7 at a one-cell table whose only unit failed. -/
theorem C7_assemble_fails_loudly_witness :
    ((0 : ℕ) < 1) ∧ cellDone [(0, Outcome.failed "x")] (0 * 1 + 0) = false ∧
    assemble false [(0, Outcome.failed "x")] 1 1 =
      Except.error AssembleError.incompleteGridError :=
  ⟨Nat.one_pos, rfl,
    (C7_assemble_fails_loudly [(0, Outcome.failed "x")] 1 1 0 0
      Nat.one_pos Nat.one_pos rfl).1⟩

/-- Claim C8: a worker computation error marks its unit Failed without
automatic retry — the unit has exactly one ResultTable entry, which holds the
captured error and surfaces only when that handle is inspected; submit and
wait_all never crash: wait_all still returns with every handle terminal. -/
theorem C8_failure_captured (exec : WorkUnit → Outcome)
    (units arr : List WorkUnit) (hperm : arr.Perm units)
    (hunique : (units.map (fun u => u.id)).Nodup)
    (u0 : WorkUnit) (hu0 : u0 ∈ units) (e : String)
    (hfail : exec u0 = Outcome.failed e) :
    idCount u0.id (buildTable exec arr) = 1 ∧
    tlookup u0.id (buildTable exec arr) = some (Outcome.failed e) ∧
    waitAll exec arr (units.map (fun u => u.id)) ≤ arr.length ∧
    allTerminal (stateAt exec arr (waitAll exec arr (units.map (fun u => u.id))))
      (units.map (fun u => u.id)) = true := by
  have hidperm : (arr.map (fun u => u.id)).Perm (units.map (fun u => u.id)) :=
    hperm.map _
  refine ⟨?_, ?_, ?_, ?_⟩
  · have h1 : idCount u0.id (buildTable exec arr) =
        (arr.map (fun u => u.id)).countP (fun x => x == u0.id) := by
      unfold idCount buildTable
      rw [List.countP_map, List.countP_map]
      rfl
    rw [h1, hidperm.countP_eq]
    have hmem : u0.id ∈ units.map (fun u => u.id) :=
      List.mem_map.mpr ⟨u0, hu0, rfl⟩
    exact List.count_eq_one_of_mem hunique hmem
  · have harrnd : (arr.map (fun u => u.id)).Nodup :=
      hidperm.nodup_iff.mpr hunique
    have hu0arr : u0 ∈ arr := hperm.mem_iff.mpr hu0
    have h2 := tlookup_buildTable_of_mem exec arr u0 harrnd hu0arr
    rw [hfail] at h2
    exact h2
  · have hsub : ∀ h ∈ units.map (fun u => u.id), h ∈ arr.map (fun u => u.id) :=
      fun h hh => hidperm.mem_iff.mpr hh
    have hfull := allTerminal_full exec arr (units.map (fun u => u.id)) hsub
    obtain ⟨_, _, c, _⟩ := waitFrom_spec
      (fun t => allTerminal (stateAt exec arr t) (units.map (fun u => u.id)))
      arr.length 0 (by simpa using hfull)
    simpa using c
  · have hsub : ∀ h ∈ units.map (fun u => u.id), h ∈ arr.map (fun u => u.id) :=
      fun h hh => hidperm.mem_iff.mpr hh
    have hfull := allTerminal_full exec arr (units.map (fun u => u.id)) hsub
    obtain ⟨a, _, _, _⟩ := waitFrom_spec
      (fun t => allTerminal (stateAt exec arr t) (units.map (fun u => u.id)))
      arr.length 0 (by simpa using hfull)
    exact a

/-- Witness for C8 at a one-unit run whose unit fails. -/
theorem C8_failure_captured_witness :
    (([⟨0, 0, 0, 100, 90, 1/10, 1/20, 260, 10000⟩] : List WorkUnit).Perm
      [⟨0, 0, 0, 100, 90, 1/10, 1/20, 260, 10000⟩]) ∧
    ((⟨0, 0, 0, 100, 90, 1/10, 1/20, 260, 10000⟩ : WorkUnit) ∈
      ([⟨0, 0, 0, 100, 90, 1/10, 1/20, 260, 10000⟩] : List WorkUnit)) ∧
    idCount (⟨0, 0, 0, 100, 90, 1/10, 1/20, 260, 10000⟩ : WorkUnit).id
      (buildTable (fun _ => Outcome.failed "x")
        [⟨0, 0, 0, 100, 90, 1/10, 1/20, 260, 10000⟩]) = 1 :=
  ⟨List.Perm.refl _, List.mem_singleton.mpr rfl,
    (C8_failure_captured (fun _ => Outcome.failed "x")
      [⟨0, 0, 0, 100, 90, 1/10, 1/20, 260, 10000⟩]
      [⟨0, 0, 0, 100, 90, 1/10, 1/20, 260, 10000⟩]
      (List.Perm.refl _) (by simp)
      ⟨0, 0, 0, 100, 90, 1/10, 1/20, 260, 10000⟩
      (List.mem_singleton.mpr rfl) "x" rfl).1⟩

end MCOptions
